import Mathlib

/-!
Verification of the nctl authentication subsystem against its specification.

The embedding translates the Go source of `auth/cluster.go` and the kubeconfig
loading rules of the api client package into Lean.  Go strings are modelled as
`List Char`, Go byte slices as `List Nat`, and Go `(T, error)` returns as
`Except (List Char) T` carrying the error message.
-/

namespace Nctl

/-- Fully qualified cluster identity, mirroring `k8s.io/apimachinery` `types.NamespacedName`. -/
structure NamespacedName where
  Name : List Char
  Namespace : List Char
deriving DecidableEq, Repr

/-- Model of Go `strings.Split(s, sep)` for a one-character separator `sep`:
splits `s` around each occurrence of `sep`; the empty string yields `[""]`,
matching Go's behaviour for a non-empty separator. -/
def splitOnChar (sep : Char) : List Char → List (List Char)
  | [] => [[]]
  | c :: rest =>
    if c = sep then [] :: splitOnChar sep rest
    else
      match splitOnChar sep rest with
      | [] => [[c]]
      | h :: t => (c :: h) :: t

/-- `clusterName` from `auth/cluster.go`: splits the raw name on `/`; when the
split yields exactly two parts they become name and namespace, otherwise the
raw name and the ambient namespace are kept; an empty resulting namespace is
an error. -/
def clusterName (name namespace' : List Char) : Except (List Char) NamespacedName :=
  let parts := splitOnChar '/' name
  let name' := if parts.length = 2 then parts.headD [] else name
  let namespace2 := if parts.length = 2 then parts.getD 1 [] else namespace'
  if namespace2 = [] then
    Except.error "namespace cannot be empty".toList
  else
    Except.ok { Name := name', Namespace := namespace2 }

/-- Model of Go `fmt.Sprintf` restricted to `%s` verbs: each `%s` in the
format consumes one argument; a `%s` with no argument left renders Go's
`%!s(MISSING)` marker. -/
def sprintfS : List Char → List (List Char) → List Char
  | [], _ => []
  | '%' :: 's' :: rest, arg :: args => arg ++ sprintfS rest args
  | '%' :: 's' :: rest, [] => "%!s(MISSING)".toList ++ sprintfS rest []
  | c :: rest, args => c :: sprintfS rest args

/-- Cluster object as used by `auth/cluster.go`: metadata name and namespace
plus the `status.atProvider` connection fields of the
`infrastructure.KubernetesCluster` type. -/
structure KubernetesCluster where
  Name : List Char
  Namespace : List Char
  APIEndpoint : List Char
  OIDCIssuerURL : List Char
  OIDCClientID : List Char
  APICACert : List Char
deriving DecidableEq, Repr

/-- `ContextName` from `auth/cluster.go`: `fmt.Sprintf("%s/%s", cluster.Name, cluster.Namespace)`. -/
def ContextName (cluster : KubernetesCluster) : List Char :=
  sprintfS "%s/%s".toList [cluster.Name, cluster.Namespace]

/-! ### Base64 decoding (Go `encoding/base64` StdEncoding.DecodeString) -/

/-- Value of a character in the standard base64 alphabet, `none` for anything else. -/
def b64Index (c : Char) : Option Nat :=
  if 'A' ≤ c ∧ c ≤ 'Z' then some (c.toNat - 65)
  else if 'a' ≤ c ∧ c ≤ 'z' then some (c.toNat - 71)
  else if '0' ≤ c ∧ c ≤ '9' then some (c.toNat + 4)
  else if c = '+' then some 62
  else if c = '/' then some 63
  else none

/-- Error message used by Go `encoding/base64` for corrupt input. -/
def illegalBase64 : List Char := "illegal base64 data".toList

/-- Model of the quantum-by-quantum standard base64 decoder: groups of four
alphabet characters yield three bytes; a final group may carry one or two `=`
padding characters (yielding two or one bytes); anything else — an incomplete
final group, a non-alphabet character, or data after padding — is corrupt
input, as in Go `encoding/base64` `StdEncoding`. -/
def decodeQuanta : List Char → Except (List Char) (List Nat)
  | [] => Except.ok []
  | c1 :: c2 :: c3 :: c4 :: rest =>
    match b64Index c1, b64Index c2 with
    | some v1, some v2 =>
      if c3 = '=' then
        if c4 = '=' ∧ rest = [] then Except.ok [v1 * 4 + v2 / 16]
        else Except.error illegalBase64
      else
        match b64Index c3 with
        | some v3 =>
          if c4 = '=' then
            if rest = [] then Except.ok [v1 * 4 + v2 / 16, v2 % 16 * 16 + v3 / 4]
            else Except.error illegalBase64
          else
            match b64Index c4 with
            | some v4 =>
              match decodeQuanta rest with
              | Except.ok bs =>
                Except.ok ((v1 * 4 + v2 / 16) :: (v2 % 16 * 16 + v3 / 4) :: (v3 % 4 * 64 + v4) :: bs)
              | Except.error e => Except.error e
            | none => Except.error illegalBase64
        | none => Except.error illegalBase64
    | _, _ => Except.error illegalBase64
  | _ => Except.error illegalBase64

/-- Model of Go `base64.StdEncoding.DecodeString`: newline and carriage-return
characters are ignored wherever they appear, then the input is decoded in
four-character quanta with mandatory `=` padding. -/
def base64DecodeString (s : List Char) : Except (List Char) (List Nat) :=
  decodeQuanta (s.filter (fun c => ¬(c = Char.ofNat 10 ∨ c = Char.ofNat 13)))

/-! ### URL parsing (Go `net/url.Parse`)

The cluster command parses the API endpoint and OIDC issuer with
`url.Parse`.  The model below follows the structure of Go's `net/url`
`parse(rawURL, viaRequest=false)`: control-character check, scheme
extraction, query/force-query split, opaque (rootless) URLs, the
colon-in-first-path-segment check for schemeless relative URLs, authority
parsing with userinfo/host/port validation, and percent-escape validation.
Path cleaning subtleties that never produce errors are elided. -/

/-- Parsed URL record mirroring the fields of Go `net/url.URL` that the
parser fills in. -/
structure GoURL where
  Scheme : List Char := []
  Opaque : List Char := []
  User : Option (List Char) := none
  Host : List Char := []
  Path : List Char := []
  RawQuery : List Char := []
  Fragment : List Char := []
  ForceQuery : Bool := false
  OmitHost : Bool := false
deriving DecidableEq, Repr

/-- Control bytes rejected by Go `net/url` (`stringContainsCTLByte`). -/
def isCTLByte (c : Char) : Bool := c.toNat < 32 ∨ c.toNat = 127

def containsCTLByte (s : List Char) : Bool := s.any isCTLByte

def isSchemeAlpha (c : Char) : Bool := ('a' ≤ c ∧ c ≤ 'z') ∨ ('A' ≤ c ∧ c ≤ 'Z')

def isSchemeDigitExtra (c : Char) : Bool :=
  ('0' ≤ c ∧ c ≤ '9') ∨ c = '+' ∨ c = '-' ∨ c = '.'

/-- Outcome of scanning for a URL scheme. -/
inductive SchemeRes where
  | noScheme
  | found (scheme rest : List Char)
  | fail (msg : List Char)

/-- Scanner behind `getScheme`: alphabetic characters extend the candidate
scheme; digits and `+ - .` may not begin it; a colon at position zero is the
`missing protocol scheme` error, a later colon ends the scheme; any other
character means the URL has no scheme. -/
def getSchemeAux (acc : List Char) (i : Nat) : List Char → SchemeRes
  | [] => SchemeRes.noScheme
  | c :: cs =>
    if isSchemeAlpha c then getSchemeAux (acc ++ [c]) (i + 1) cs
    else if isSchemeDigitExtra c then
      if i = 0 then SchemeRes.noScheme else getSchemeAux (acc ++ [c]) (i + 1) cs
    else if c = ':' then
      if i = 0 then SchemeRes.fail "missing protocol scheme".toList
      else SchemeRes.found acc cs
    else SchemeRes.noScheme

/-- Model of Go `net/url` `getScheme`. -/
def getScheme (rawURL : List Char) : Except (List Char) (List Char × List Char) :=
  match getSchemeAux [] 0 rawURL with
  | SchemeRes.noScheme => Except.ok ([], rawURL)
  | SchemeRes.found s rest => Except.ok (s, rest)
  | SchemeRes.fail e => Except.error e

/-- Model of Go `strings.Cut` at the first occurrence of one character:
returns the part before it and, when present, the part after it. -/
def cutChar : List Char → Char → List Char × Option (List Char)
  | [], _ => ([], none)
  | x :: xs, c =>
    if x = c then ([], some xs)
    else
      let r := cutChar xs c
      (x :: r.1, r.2)

def indexOfChar : List Char → Char → Option Nat
  | [], _ => none
  | x :: xs, c => if x = c then some 0 else (indexOfChar xs c).map (· + 1)

def lastIndexOfChar : List Char → Char → Option Nat
  | [], _ => none
  | x :: xs, c =>
    match lastIndexOfChar xs c with
    | some i => some (i + 1)
    | none => if x = c then some 0 else none

def startsWithSlash : List Char → Bool
  | '/' :: _ => true
  | _ => false

def startsWithTwoSlashes : List Char → Bool
  | '/' :: '/' :: _ => true
  | _ => false

def startsWithThreeSlashes : List Char → Bool
  | '/' :: '/' :: '/' :: _ => true
  | _ => false

def isHexDigit (c : Char) : Bool :=
  ('0' ≤ c ∧ c ≤ '9') ∨ ('a' ≤ c ∧ c ≤ 'f') ∨ ('A' ≤ c ∧ c ≤ 'F')

def hexVal (c : Char) : Nat :=
  if '0' ≤ c ∧ c ≤ '9' then c.toNat - 48
  else if 'a' ≤ c ∧ c ≤ 'f' then c.toNat - 87
  else if 'A' ≤ c ∧ c ≤ 'F' then c.toNat - 55
  else 0

/-- Every `%` in the string is followed by two hexadecimal digits (Go
`unescape` validity for the non-host encodings). -/
def escapesValid : List Char → Bool
  | [] => true
  | '%' :: a :: b :: rest => isHexDigit a ∧ isHexDigit b ∧ escapesValid rest
  | '%' :: _ => false
  | _ :: rest => escapesValid rest

/-- Like `escapesValid` but with Go's host rule: an escape decoding below
`0x80` is rejected in a host, with `%25` as the single exception. -/
def hostEscapesValid : List Char → Bool
  | [] => true
  | '%' :: a :: b :: rest =>
    isHexDigit a ∧ isHexDigit b ∧ (8 ≤ hexVal a ∨ (a = '2' ∧ b = '5')) ∧ hostEscapesValid rest
  | '%' :: _ => false
  | _ :: rest => hostEscapesValid rest

/-- Percent-decoding applied after validation succeeded. -/
def percentDecode : List Char → List Char
  | '%' :: a :: b :: rest => Char.ofNat (16 * hexVal a + hexVal b) :: percentDecode rest
  | c :: rest => c :: percentDecode rest
  | [] => []

/-- Model of Go `net/url` `validOptionalPort`: empty, or a colon followed by
decimal digits only. -/
def validOptionalPort : List Char → Bool
  | [] => true
  | ':' :: digits => digits.all (fun c => '0' ≤ c ∧ c ≤ '9')
  | _ => false

/-- Model of Go `net/url` `parseHost`: bracketed hosts need a closing `]`
and a valid optional port after it; otherwise the part from the last colon
must be a valid optional port; finally host escapes are validated. -/
def parseHost (host : List Char) : Except (List Char) (List Char) :=
  match host with
  | '[' :: _ =>
    match lastIndexOfChar host ']' with
    | none => Except.error "missing right bracket in host".toList
    | some i =>
      if validOptionalPort (host.drop (i + 1)) then
        if hostEscapesValid host then Except.ok (percentDecode host)
        else Except.error "invalid URL escape".toList
      else Except.error "invalid port after host".toList
  | _ =>
    match lastIndexOfChar host ':' with
    | some i =>
      if validOptionalPort (host.drop i) then
        if hostEscapesValid host then Except.ok (percentDecode host)
        else Except.error "invalid URL escape".toList
      else Except.error "invalid port after host".toList
    | none =>
      if hostEscapesValid host then Except.ok (percentDecode host)
      else Except.error "invalid URL escape".toList

/-- Characters Go `net/url` `validUserinfo` accepts besides letters and digits. -/
def isUserinfoExtra (r : Char) : Bool :=
  r = '-' ∨ r = '.' ∨ r = '_' ∨ r = ':' ∨ r = '~' ∨ r = '!' ∨ r = '$' ∨ r = '&' ∨
  r = Char.ofNat 39 ∨ r = '(' ∨ r = ')' ∨ r = '*' ∨ r = '+' ∨ r = ',' ∨ r = ';' ∨
  r = '=' ∨ r = '%' ∨ r = '@'

def validUserinfo (s : List Char) : Bool :=
  s.all (fun r =>
    ('A' ≤ r ∧ r ≤ 'Z') ∨ ('a' ≤ r ∧ r ≤ 'z') ∨ ('0' ≤ r ∧ r ≤ '9') ∨ isUserinfoExtra r)

/-- Model of Go `net/url` `parseAuthority`: the host is everything after the
last `@` and is parsed by `parseHost`; the userinfo before it must pass
`validUserinfo` and carry valid percent escapes. -/
def parseAuthority (authority : List Char) :
    Except (List Char) (Option (List Char) × List Char) :=
  match lastIndexOfChar authority '@' with
  | none =>
    match parseHost authority with
    | Except.ok h => Except.ok (none, h)
    | Except.error e => Except.error e
  | some i =>
    match parseHost (authority.drop (i + 1)) with
    | Except.error e => Except.error e
    | Except.ok host =>
      let userinfo := authority.take i
      if validUserinfo userinfo then
        if escapesValid userinfo then Except.ok (some (percentDecode userinfo), host)
        else Except.error "invalid URL escape".toList
      else Except.error "net/url: invalid userinfo".toList

/-- Path setter of Go `net/url` (`URL.setPath`): validates percent escapes
and stores the decoded path. -/
def setPathCheck (p : List Char) : Except (List Char) (List Char) :=
  if escapesValid p then Except.ok (percentDecode p)
  else Except.error "invalid URL escape".toList

/-- Query splitting step of Go `net/url` `parse`: a single trailing `?`
with no other `?` sets `ForceQuery`; otherwise the string is cut at the
first `?` into rest and raw query. -/
def splitQuery (rest : List Char) : Bool × List Char × List Char :=
  if rest.getLast? = some '?' ∧ ¬rest.dropLast.contains '?' then
    (true, rest.dropLast, [])
  else
    match cutChar rest '?' with
    | (before, some a) => (false, before, a)
    | (before, none) => (false, before, [])

/-- Model of Go `net/url` `parse(rawURL, viaRequest=false)` after the
fragment has been split off. -/
def parseMain (rawURL : List Char) : Except (List Char) GoURL :=
  if containsCTLByte rawURL then
    Except.error "net/url: invalid control character in URL".toList
  else if rawURL = "*".toList then Except.ok { Path := "*".toList }
  else
    match getScheme rawURL with
    | Except.error e => Except.error e
    | Except.ok (scheme0, rest0) =>
      let scheme := scheme0.map Char.toLower
      let (forceQuery, rest, rawQuery) := splitQuery rest0
      if ¬startsWithSlash rest ∧ ¬scheme.isEmpty then
        Except.ok { Scheme := scheme, Opaque := rest, RawQuery := rawQuery,
                    ForceQuery := forceQuery }
      else if ¬startsWithSlash rest ∧ (cutChar rest '/').1.contains ':' then
        Except.error "first path segment in URL cannot contain colon".toList
      else if startsWithTwoSlashes rest ∧ (¬scheme.isEmpty ∨ ¬startsWithThreeSlashes rest) then
        let afterTwo := rest.drop 2
        let (authority, rest2) :=
          match indexOfChar afterTwo '/' with
          | some i => (afterTwo.take i, afterTwo.drop i)
          | none => (afterTwo, [])
        match parseAuthority authority with
        | Except.error e => Except.error e
        | Except.ok (user, host) =>
          match setPathCheck rest2 with
          | Except.error e => Except.error e
          | Except.ok path =>
            Except.ok { Scheme := scheme, User := user, Host := host, Path := path,
                        RawQuery := rawQuery, ForceQuery := forceQuery }
      else
        let omitHost := ¬scheme.isEmpty ∧ startsWithSlash rest
        match setPathCheck rest with
        | Except.error e => Except.error e
        | Except.ok path =>
          Except.ok { Scheme := scheme, Path := path, RawQuery := rawQuery,
                      ForceQuery := forceQuery, OmitHost := omitHost }

/-- Model of Go `net/url.Parse`: the fragment after the first `#` is split
off first, the remainder goes through `parseMain`, and the fragment's
percent escapes are validated. -/
def urlParse (rawURL : List Char) : Except (List Char) GoURL :=
  let (u, frag) := cutChar rawURL '#'
  match parseMain u with
  | Except.error e => Except.error e
  | Except.ok url =>
    match frag with
    | none => Except.ok url
    | some f =>
      if escapesValid f then Except.ok { url with Fragment := percentDecode f }
      else Except.error "invalid URL escape".toList

/-! ### The cluster login pipeline (`ClusterCmd.Run` in `auth/cluster.go`)

`newAPIConfig` and `login` live in the repository's kubeconfig files and are
outside the verified source; `Run` only needs whether they were invoked and
whether they failed, so they enter the model as environment functions that
may report an error message, while the trace records every invocation. -/

/-- CLI command as in `auth/cluster.go`: the cluster name argument and the
exec-plugin flag. -/
structure ClusterCmd where
  Name : List Char
  ExecPlugin : Bool
deriving DecidableEq, Repr

/-- The slice of the api client that `ClusterCmd.Run` uses: ambient
namespace, kubeconfig path, and the point lookup against the resource API
(abstracted as a function supplied by the test environment). -/
structure Client where
  Namespace : List Char
  KubeconfigPath : List Char
  Get : NamespacedName → Except (List Char) KubernetesCluster

/-- Errors `ClusterCmd.Run` can return, one constructor per return site in
the Go function, carrying the wrapped message. -/
inductive RunError where
  | resolveErr (msg : List Char)
  | getErr (msg : List Char)
  | invalidAPIEndpoint (msg : List Char)
  | invalidOIDCIssuerURL (msg : List Char)
  | invalidCACert (msg : List Char)
  | selfResolutionFailed
  | kubeconfigCreateErr (msg : List Char)
  | loginFailed (msg : List Char)
deriving DecidableEq, Repr

/-- Arguments the Go code passes to `newAPIConfig`. -/
structure APIConfigArgs where
  apiEndpoint : GoURL
  issuerURL : GoURL
  command : List Char
  clientID : List Char
  contextName : List Char
  caCert : List Nat
deriving DecidableEq, Repr

/-- Arguments the Go code passes to `login`. -/
structure LoginArgs where
  cfg : APIConfigArgs
  kubeconfigPath : List Char
  runExecPlugin : Bool
  switchCurrentContext : Bool
deriving DecidableEq, Repr

/-- Result of one `Run`, together with which effectful collaborators were
reached: the API lookup, the kubeconfig construction, and the kubeconfig
write/login. -/
structure RunTrace where
  getAttempted : Bool := false
  newAPIConfigCalled : Bool := false
  loginCalled : Bool := false
  result : Except RunError Unit
deriving Repr

/-- `ClusterCmd.Run` from `auth/cluster.go`, step for step: resolve the
identity, fetch the cluster, parse endpoint and issuer URLs, decode the CA
certificate, take the command from `os.Args`, build the kubeconfig and log
in.  `newAPIConfigErrF` and `loginErrF` supply the (out-of-scope) failure
behaviour of `newAPIConfig` and `login`. -/
def ClusterCmd.Run (a : ClusterCmd) (client : Client) (osArgs : List (List Char))
    (newAPIConfigErrF : APIConfigArgs → Option (List Char))
    (loginErrF : LoginArgs → Option (List Char)) : RunTrace :=
  match clusterName a.Name client.Namespace with
  | Except.error e => { result := Except.error (RunError.resolveErr e) }
  | Except.ok name =>
    match client.Get name with
    | Except.error e =>
      { getAttempted := true, result := Except.error (RunError.getErr e) }
    | Except.ok cluster =>
      match urlParse cluster.APIEndpoint with
      | Except.error e =>
        { getAttempted := true, result := Except.error (RunError.invalidAPIEndpoint e) }
      | Except.ok apiEndpoint =>
        match urlParse cluster.OIDCIssuerURL with
        | Except.error e =>
          { getAttempted := true, result := Except.error (RunError.invalidOIDCIssuerURL e) }
        | Except.ok issuerURL =>
          match base64DecodeString cluster.APICACert with
          | Except.error e =>
            { getAttempted := true, result := Except.error (RunError.invalidCACert e) }
          | Except.ok caCert =>
            if osArgs.isEmpty then
              { getAttempted := true, result := Except.error RunError.selfResolutionFailed }
            else
              let command := osArgs.headD []
              let cfgArgs : APIConfigArgs :=
                { apiEndpoint := apiEndpoint, issuerURL := issuerURL, command := command,
                  clientID := cluster.OIDCClientID, contextName := ContextName cluster,
                  caCert := caCert }
              match newAPIConfigErrF cfgArgs with
              | some e =>
                { getAttempted := true, newAPIConfigCalled := true,
                  result := Except.error (RunError.kubeconfigCreateErr e) }
              | none =>
                match loginErrF { cfg := cfgArgs, kubeconfigPath := client.KubeconfigPath,
                                  runExecPlugin := a.ExecPlugin,
                                  switchCurrentContext := true } with
                | some e =>
                  { getAttempted := true, newAPIConfigCalled := true, loginCalled := true,
                    result := Except.error (RunError.loginFailed e) }
                | none =>
                  { getAttempted := true, newAPIConfigCalled := true, loginCalled := true,
                    result := Except.ok () }

/-! ### Kubeconfig loading rules (`LoadingRules` in the api client package) -/

/-- Process environment as the loading rules observe it: the raw value of
`KUBECONFIG` (empty when unset, as `os.Getenv` reports it), the value of
`HOME` as seen by `os.LookupEnv` (distinguishing unset from empty), and the
outcome of `user.Current()` reduced to the home directory it reports. -/
structure Env where
  kubeconfigEnv : List Char
  homeEnv : Option (List Char)
  currentUser : Except (List Char) (List Char)

/-- Model of Go `filepath.SplitList` on Unix: empty input gives no paths,
otherwise the input is split on `:`. -/
def splitList (s : List Char) : List (List Char) :=
  if s = [] then [] else splitOnChar ':' s

/-- First-occurrence deduplication, as client-go's `deduplicate` applies to
the `KUBECONFIG` file list. -/
def dedupeAux (seen : List (List Char)) : List (List Char) → List (List Char)
  | [] => []
  | x :: xs => if x ∈ seen then dedupeAux seen xs else x :: dedupeAux (seen ++ [x]) xs

def deduplicate (l : List (List Char)) : List (List Char) := dedupeAux [] l

/-- Model of Go `filepath.Join` on Unix for the inputs at hand: non-empty
components joined by `/` (path cleaning, which cannot fail, is elided). -/
def filepathJoin (parts : List (List Char)) : List Char :=
  joinNE (parts.filter (fun p => ¬p.isEmpty))
where
  joinNE : List (List Char) → List Char
    | [] => []
    | [p] => p
    | p :: ps => p ++ '/' :: joinNE ps

/-- Loading rules: the ordered kubeconfig path precedence list. -/
structure ClientConfigLoadingRulesT where
  Precedence : List (List Char)
deriving DecidableEq, Repr

/-- Model of the external `clientcmd.NewDefaultClientConfigLoadingRules`
from k8s.io/client-go: when `KUBECONFIG` is non-empty its path list (split
and deduplicated) is the precedence chain; otherwise the chain is the single
recommended home file `$HOME/.kube/config` (with `$HOME` read by
`os.Getenv`, empty when unset). -/
def NewDefaultClientConfigLoadingRules (env : Env) : ClientConfigLoadingRulesT :=
  let envVarFiles := env.kubeconfigEnv
  if envVarFiles.length ≠ 0 then
    { Precedence := deduplicate (splitList envVarFiles) }
  else
    { Precedence := [filepathJoin [env.homeEnv.getD [], ".kube".toList, "config".toList]] }

/-- `LoadingRules` from the api client package: start from the client-go
default rules; when `HOME` is not set, look up the current OS user (failing
if that lookup fails) and append `<userHome>/.kube/config` to the
precedence. -/
def LoadingRules (env : Env) : Except (List Char) ClientConfigLoadingRulesT :=
  let loadingRules := NewDefaultClientConfigLoadingRules env
  match env.homeEnv with
  | some _ => Except.ok loadingRules
  | none =>
    match env.currentUser with
    | Except.error e => Except.error ("could not get current user: ".toList ++ e)
    | Except.ok uHomeDir =>
      Except.ok { Precedence :=
        loadingRules.Precedence ++
          [filepathJoin [uHomeDir, ".kube".toList, "config".toList]] }

/-- Kubeconfig path precedence as the specification words it: the explicit
environment-variable override when present; else the conventional per-user
default path; with the OS-user-lookup path appended exactly when no home
directory is resolvable from the environment. -/
def specPrecedence (env : Env) : List (List Char) :=
  (if env.kubeconfigEnv.length ≠ 0 then deduplicate (splitList env.kubeconfigEnv)
   else [filepathJoin [env.homeEnv.getD [], ".kube".toList, "config".toList]]) ++
  (match env.homeEnv, env.currentUser with
   | none, Except.ok u => [filepathJoin [u, ".kube".toList, "config".toList]]
   | _, _ => [])

/-! ### Concrete fixtures used by witnesses and counterexamples -/

/-- Well-formed example cluster object. -/
def exCluster : KubernetesCluster :=
  { Name := "prod".toList, Namespace := "team-a".toList,
    APIEndpoint := "https://api.example.com".toList,
    OIDCIssuerURL := "https://auth.example.com".toList,
    OIDCClientID := "nctl".toList, APICACert := "YWJj".toList }

/-- Client whose lookup always returns `exCluster`. -/
def exClient : Client :=
  { Namespace := "team-a".toList, KubeconfigPath := "/home/op/.kube/config".toList,
    Get := fun _ => Except.ok exCluster }

/-- Example cluster whose `status.apiEndpoint` is the empty string. -/
def exClusterEmptyEndpoint : KubernetesCluster :=
  { exCluster with APIEndpoint := [] }

/-- Client whose lookup returns the empty-endpoint cluster. -/
def exClientEmptyEndpoint : Client :=
  { exClient with Get := fun _ => Except.ok exClusterEmptyEndpoint }

/-- Example cluster whose CA certificate is not valid base64. -/
def exClusterBadCA : KubernetesCluster :=
  { exCluster with APICACert := "!!!".toList }

/-- Client whose lookup returns the bad-CA cluster. -/
def exClientBadCA : Client :=
  { exClient with Get := fun _ => Except.ok exClusterBadCA }

/-- Example cluster whose API endpoint is rejected by `url.Parse`. -/
def exClusterBadEndpoint : KubernetesCluster :=
  { exCluster with APIEndpoint := "https://api.example.com:bad".toList }

/-- Client whose lookup returns the bad-endpoint cluster. -/
def exClientBadEndpoint : Client :=
  { exClient with Get := fun _ => Except.ok exClusterBadEndpoint }

theorem splitOnChar_ne_nil (sep : Char) (s : List Char) : splitOnChar sep s ≠ [] := by
  cases s with
  | nil => simp [splitOnChar]
  | cons c rest =>
    simp only [splitOnChar]
    split
    · simp
    · split <;> simp

theorem splitOnChar_of_not_mem (sep : Char) (s : List Char) (h : sep ∉ s) :
    splitOnChar sep s = [s] := by
  induction s with
  | nil => rfl
  | cons c rest ih =>
    have hc : c ≠ sep := fun hc => h (hc ▸ List.mem_cons_self c rest)
    have hrest : sep ∉ rest := fun hr => h (List.mem_cons_of_mem c hr)
    simp only [splitOnChar, if_neg hc, ih hrest]

theorem splitOnChar_append (sep : Char) (a b : List Char) (ha : sep ∉ a) :
    splitOnChar sep (a ++ sep :: b) = a :: splitOnChar sep b := by
  induction a with
  | nil => simp [splitOnChar]
  | cons c a0 ih =>
    have hc : c ≠ sep := fun hc => ha (hc ▸ List.mem_cons_self c a0)
    have ha0 : sep ∉ a0 := fun hr => ha (List.mem_cons_of_mem c hr)
    simp only [List.cons_append, splitOnChar, if_neg hc]
    rw [show a0.append (sep :: b) = a0 ++ sep :: b from rfl, ih ha0]

theorem splitOnChar_length (sep : Char) (s : List Char) :
    (splitOnChar sep s).length = s.count sep + 1 := by
  induction s with
  | nil => simp [splitOnChar]
  | cons c rest ih =>
    by_cases hc : c = sep
    · subst hc
      simp [splitOnChar, ih, List.count_cons]
    · cases hsp : splitOnChar sep rest with
      | nil => exact absurd hsp (splitOnChar_ne_nil sep rest)
      | cons h t =>
        simp only [splitOnChar, if_neg hc, hsp, List.length_cons]
        have := ih
        rw [hsp] at this
        simp only [List.length_cons] at this
        simp [List.count_cons, hc, ← this]

/-! ### Resolver claims -/

/-- C3: for all names and namespaces without `/` in either part and a
non-empty namespace, resolving the joined token round-trips:
`clusterName (name ++ "/" ++ ns) ambient` succeeds and returns
`{Name := name, Namespace := ns}` for every ambient namespace. -/
theorem clusterName_roundTrip (name ns ambient : List Char)
    (h1 : '/' ∉ name) (h2 : '/' ∉ ns) (h3 : ns ≠ []) :
    clusterName (name ++ '/' :: ns) ambient =
      Except.ok { Name := name, Namespace := ns } := by
  unfold clusterName
  rw [splitOnChar_append '/' name ns h1, splitOnChar_of_not_mem '/' ns h2]
  simp [h3]

theorem clusterName_roundTrip_witness :
    clusterName ("prod".toList ++ '/' :: "team-a".toList) "ignored".toList =
      Except.ok { Name := "prod".toList, Namespace := "team-a".toList } :=
  clusterName_roundTrip "prod".toList "team-a".toList "ignored".toList
    (by decide) (by decide) (by decide)

/-- C5: for every input name containing zero `/` characters and every
non-empty ambient namespace, `clusterName` succeeds and returns the name
with the ambient namespace. -/
theorem clusterName_ambient (name ambient : List Char)
    (h1 : '/' ∉ name) (h2 : ambient ≠ []) :
    clusterName name ambient = Except.ok { Name := name, Namespace := ambient } := by
  unfold clusterName
  rw [splitOnChar_of_not_mem '/' name h1]
  simp [h2]

theorem clusterName_ambient_witness :
    clusterName "prod".toList "team-a".toList =
      Except.ok { Name := "prod".toList, Namespace := "team-a".toList } :=
  clusterName_ambient "prod".toList "team-a".toList (by decide) (by decide)

/-- C4: for every input with no `/` and an empty ambient namespace,
`clusterName` fails with the namespace-cannot-be-empty error rather than
returning an identity. -/
theorem clusterName_emptyAmbient (name : List Char) (h1 : '/' ∉ name) :
    clusterName name [] = Except.error "namespace cannot be empty".toList := by
  unfold clusterName
  rw [splitOnChar_of_not_mem '/' name h1]
  simp

theorem clusterName_emptyAmbient_witness :
    clusterName "prod".toList [] = Except.error "namespace cannot be empty".toList :=
  clusterName_emptyAmbient "prod".toList (by decide)

/-- C10: for every non-empty namespace token `ns` (no `/` inside it), the
input `"/" ++ ns` with an empty name part is accepted by `clusterName`: it
succeeds with an empty `Name` and `Namespace := ns` — the resolver never
validates that the name part is non-empty. -/
theorem clusterName_emptyNamePart (ns ambient : List Char)
    (h1 : ns ≠ []) (h2 : '/' ∉ ns) :
    clusterName ('/' :: ns) ambient = Except.ok { Name := [], Namespace := ns } := by
  unfold clusterName
  have hsp : splitOnChar '/' ('/' :: ns) = [] :: splitOnChar '/' ns := by
    simp [splitOnChar]
  rw [hsp, splitOnChar_of_not_mem '/' ns h2]
  simp [h1]

theorem clusterName_emptyNamePart_witness :
    clusterName ('/' :: "team-a".toList) "ignored".toList =
      Except.ok { Name := [], Namespace := "team-a".toList } :=
  clusterName_emptyNamePart "team-a".toList "ignored".toList (by decide) (by decide)

/-- C1 counterexample: the input `"a/b/c"` (two slashes) with the non-empty
ambient namespace `"default"` is not rejected: `clusterName` succeeds with
the whole string as the name, and the pipeline then does attempt the API
lookup. -/
theorem clusterName_twoSlashes_cex :
    clusterName "a/b/c".toList "default".toList =
      Except.ok { Name := "a/b/c".toList, Namespace := "default".toList } ∧
    (ClusterCmd.Run { Name := "a/b/c".toList, ExecPlugin := false }
        { exClient with Namespace := "default".toList } ["nctl".toList]
        (fun _ => none) (fun _ => none)).getAttempted = true :=
  ⟨rfl, rfl⟩

/-- C1 (amended): for every input containing more than one `/`, the split is
not applied: with a non-empty ambient namespace `clusterName` succeeds with
the whole raw string as the name, and it fails with the InvalidIdentifier
(namespace-cannot-be-empty) error exactly when the ambient namespace is
empty — in which case the failure happens before any API lookup. -/
theorem clusterName_multiSlash (s ambient : List Char) (h : 2 ≤ s.count '/') :
    (ambient ≠ [] → clusterName s ambient = Except.ok { Name := s, Namespace := ambient }) ∧
    (ambient = [] → clusterName s ambient = Except.error "namespace cannot be empty".toList) ∧
    (∀ (a : ClusterCmd) (client : Client) (osArgs : List (List Char))
        (nErr : APIConfigArgs → Option (List Char)) (lErr : LoginArgs → Option (List Char)),
      a.Name = s → client.Namespace = [] →
      (ClusterCmd.Run a client osArgs nErr lErr).getAttempted = false) := by
  have hlen : (splitOnChar '/' s).length ≠ 2 := by
    rw [splitOnChar_length]
    omega
  refine ⟨?_, ?_, ?_⟩
  · intro hne
    unfold clusterName
    simp [hlen, hne]
  · intro he
    subst he
    unfold clusterName
    simp [hlen]
  · intro a client osArgs nErr lErr ha hns
    have hres : clusterName a.Name client.Namespace =
        Except.error "namespace cannot be empty".toList := by
      rw [ha, hns]
      unfold clusterName
      simp [hlen]
    simp [ClusterCmd.Run, hres]

theorem clusterName_multiSlash_witness :
    clusterName "a/b/c".toList "default".toList =
      Except.ok { Name := "a/b/c".toList, Namespace := "default".toList } ∧
    clusterName "a/b/c".toList [] = Except.error "namespace cannot be empty".toList :=
  ⟨(clusterName_multiSlash "a/b/c".toList "default".toList (by decide)).1 (by decide),
   (clusterName_multiSlash "a/b/c".toList [] (by decide)).2.1 rfl⟩

/-- C6: for every cluster object, the derived context name equals the
cluster's name, a `/`, and the cluster's namespace. -/
theorem contextName_derivation (cluster : KubernetesCluster) :
    ContextName cluster = cluster.Name ++ '/' :: cluster.Namespace := by
  have h1 : ContextName cluster =
      cluster.Name ++ sprintfS ('/' :: '%' :: 's' :: []) [cluster.Namespace] := rfl
  have h2 : sprintfS ('/' :: '%' :: 's' :: []) [cluster.Namespace] =
      '/' :: (cluster.Namespace ++ []) := rfl
  rw [h1, h2, List.append_nil]

/-! ### Pipeline claims -/

/-- C2 counterexample: a cluster whose `status.apiEndpoint` is the empty
string does not make `ClusterCmd.Run` fail with IncompleteStatus — with every
other field well-formed the whole login pipeline succeeds, so a kubeconfig
mutation does occur. -/
theorem run_emptyEndpoint_cex :
    (ClusterCmd.Run { Name := "prod".toList, ExecPlugin := false } exClientEmptyEndpoint
        ["nctl".toList] (fun _ => none) (fun _ => none)).result = Except.ok () ∧
    (ClusterCmd.Run { Name := "prod".toList, ExecPlugin := false } exClientEmptyEndpoint
        ["nctl".toList] (fun _ => none) (fun _ => none)).loginCalled = true :=
  ⟨rfl, rfl⟩

/-- C2 (amended): the empty string is accepted by the URL parser (it parses
as the empty relative URL), so an empty `status.apiEndpoint` does not
produce IncompleteStatus; `ClusterCmd.Run` fails with the
invalid-cluster-API-endpoint error exactly when `url.Parse` rejects the
endpoint, and in that case no kubeconfig construction or mutation occurs. -/
theorem run_incompleteStatus (a : ClusterCmd) (client : Client)
    (osArgs : List (List Char)) (nErr : APIConfigArgs → Option (List Char))
    (lErr : LoginArgs → Option (List Char)) (name : NamespacedName)
    (cluster : KubernetesCluster) (e : List Char)
    (h1 : clusterName a.Name client.Namespace = Except.ok name)
    (h2 : client.Get name = Except.ok cluster)
    (h3 : urlParse cluster.APIEndpoint = Except.error e) :
    urlParse [] = Except.ok {} ∧
    (ClusterCmd.Run a client osArgs nErr lErr).result =
      Except.error (RunError.invalidAPIEndpoint e) ∧
    (ClusterCmd.Run a client osArgs nErr lErr).newAPIConfigCalled = false ∧
    (ClusterCmd.Run a client osArgs nErr lErr).loginCalled = false := by
  refine ⟨rfl, ?_⟩
  simp [ClusterCmd.Run, h1, h2, h3]

theorem run_incompleteStatus_witness :
    urlParse [] = Except.ok {} ∧
    (ClusterCmd.Run { Name := "prod".toList, ExecPlugin := false } exClientBadEndpoint
        ["nctl".toList] (fun _ => none) (fun _ => none)).result =
      Except.error (RunError.invalidAPIEndpoint "invalid port after host".toList) ∧
    (ClusterCmd.Run { Name := "prod".toList, ExecPlugin := false } exClientBadEndpoint
        ["nctl".toList] (fun _ => none) (fun _ => none)).newAPIConfigCalled = false ∧
    (ClusterCmd.Run { Name := "prod".toList, ExecPlugin := false } exClientBadEndpoint
        ["nctl".toList] (fun _ => none) (fun _ => none)).loginCalled = false :=
  run_incompleteStatus _ exClientBadEndpoint _ _ _
    { Name := "prod".toList, Namespace := "team-a".toList } exClusterBadEndpoint
    "invalid port after host".toList rfl rfl rfl

/-- C7: for every cluster object reached by the pipeline (identity resolved,
lookup succeeded, endpoint and issuer URLs parsed) whose CA certificate is
not valid standard base64, `ClusterCmd.Run` fails with the decoding error,
and neither `newAPIConfig` nor `login` is ever invoked. -/
theorem run_invalidCACert (a : ClusterCmd) (client : Client)
    (osArgs : List (List Char)) (nErr : APIConfigArgs → Option (List Char))
    (lErr : LoginArgs → Option (List Char)) (name : NamespacedName)
    (cluster : KubernetesCluster) (e : List Char)
    (h1 : clusterName a.Name client.Namespace = Except.ok name)
    (h2 : client.Get name = Except.ok cluster)
    (h3 : ∃ ep, urlParse cluster.APIEndpoint = Except.ok ep)
    (h4 : ∃ iss, urlParse cluster.OIDCIssuerURL = Except.ok iss)
    (h5 : base64DecodeString cluster.APICACert = Except.error e) :
    (ClusterCmd.Run a client osArgs nErr lErr).result =
      Except.error (RunError.invalidCACert e) ∧
    (ClusterCmd.Run a client osArgs nErr lErr).newAPIConfigCalled = false ∧
    (ClusterCmd.Run a client osArgs nErr lErr).loginCalled = false := by
  obtain ⟨ep, h3⟩ := h3
  obtain ⟨iss, h4⟩ := h4
  simp [ClusterCmd.Run, h1, h2, h3, h4, h5]

theorem run_invalidCACert_witness :
    (ClusterCmd.Run { Name := "prod".toList, ExecPlugin := false } exClientBadCA
        ["nctl".toList] (fun _ => none) (fun _ => none)).result =
      Except.error (RunError.invalidCACert illegalBase64) ∧
    (ClusterCmd.Run { Name := "prod".toList, ExecPlugin := false } exClientBadCA
        ["nctl".toList] (fun _ => none) (fun _ => none)).newAPIConfigCalled = false ∧
    (ClusterCmd.Run { Name := "prod".toList, ExecPlugin := false } exClientBadCA
        ["nctl".toList] (fun _ => none) (fun _ => none)).loginCalled = false :=
  run_invalidCACert _ exClientBadCA _ _ _
    { Name := "prod".toList, Namespace := "team-a".toList } exClusterBadCA
    illegalBase64 rfl rfl ⟨_, rfl⟩ ⟨_, rfl⟩ rfl

/-- C9: when `os.Args` is empty and the pipeline has been reached with a
well-formed cluster, `ClusterCmd.Run` fails with the self-resolution error
before constructing the credential configuration: `newAPIConfig` and `login`
are never invoked, so no kubeconfig write occurs and nothing is retried. -/
theorem run_selfResolutionFailed (a : ClusterCmd) (client : Client)
    (osArgs : List (List Char)) (nErr : APIConfigArgs → Option (List Char))
    (lErr : LoginArgs → Option (List Char)) (name : NamespacedName)
    (cluster : KubernetesCluster)
    (h1 : clusterName a.Name client.Namespace = Except.ok name)
    (h2 : client.Get name = Except.ok cluster)
    (h3 : ∃ ep, urlParse cluster.APIEndpoint = Except.ok ep)
    (h4 : ∃ iss, urlParse cluster.OIDCIssuerURL = Except.ok iss)
    (h5 : ∃ ca, base64DecodeString cluster.APICACert = Except.ok ca)
    (h6 : osArgs = []) :
    (ClusterCmd.Run a client osArgs nErr lErr).result =
      Except.error RunError.selfResolutionFailed ∧
    (ClusterCmd.Run a client osArgs nErr lErr).newAPIConfigCalled = false ∧
    (ClusterCmd.Run a client osArgs nErr lErr).loginCalled = false := by
  obtain ⟨ep, h3⟩ := h3
  obtain ⟨iss, h4⟩ := h4
  obtain ⟨ca, h5⟩ := h5
  subst h6
  simp [ClusterCmd.Run, h1, h2, h3, h4, h5]

theorem run_selfResolutionFailed_witness :
    (ClusterCmd.Run { Name := "prod".toList, ExecPlugin := false } exClient []
        (fun _ => none) (fun _ => none)).result =
      Except.error RunError.selfResolutionFailed ∧
    (ClusterCmd.Run { Name := "prod".toList, ExecPlugin := false } exClient []
        (fun _ => none) (fun _ => none)).newAPIConfigCalled = false ∧
    (ClusterCmd.Run { Name := "prod".toList, ExecPlugin := false } exClient []
        (fun _ => none) (fun _ => none)).loginCalled = false :=
  run_selfResolutionFailed _ exClient [] _ _
    { Name := "prod".toList, Namespace := "team-a".toList } exCluster
    rfl rfl ⟨_, rfl⟩ ⟨_, rfl⟩ ⟨_, rfl⟩ rfl

/-! ### Kubeconfig location claim -/

/-- C8: the kubeconfig location precedence of `LoadingRules` matches the
specified order — environment-variable override first, else the per-user
default path — with the OS-user-lookup path appended exactly when `HOME` is
unset, and `LoadingRules` fails exactly when `HOME` is unset and that user
lookup fails. -/
theorem loadingRules_precedence (env : Env) :
    (∀ rules, LoadingRules env = Except.ok rules → rules.Precedence = specPrecedence env) ∧
    ((∃ e, LoadingRules env = Except.error e) ↔
      env.homeEnv = none ∧ ∃ e2, env.currentUser = Except.error e2) := by
  cases hh : env.homeEnv with
  | some h =>
    constructor
    · intro rules hr
      simp [LoadingRules, hh] at hr
      subst hr
      simp [specPrecedence, NewDefaultClientConfigLoadingRules, hh]
      split <;> rfl
    · simp [LoadingRules, hh]
  | none =>
    cases hu : env.currentUser with
    | error e =>
      constructor
      · intro rules hr
        simp [LoadingRules, hh, hu] at hr
      · simp [LoadingRules, hh, hu]
    | ok u =>
      constructor
      · intro rules hr
        simp [LoadingRules, hh, hu] at hr
        subst hr
        simp [specPrecedence, NewDefaultClientConfigLoadingRules, hh, hu]
        split <;> rfl
      · simp [LoadingRules, hh, hu]

/-- Concrete environment: `KUBECONFIG` set, `HOME` unset, user lookup succeeding. -/
def exEnvNoHome : Env :=
  { kubeconfigEnv := "/tmp/kc".toList, homeEnv := none,
    currentUser := Except.ok "/home/op".toList }

theorem loadingRules_precedence_witness :
    ({ Precedence := ["/tmp/kc".toList, "/home/op/.kube/config".toList] } :
        ClientConfigLoadingRulesT).Precedence = specPrecedence exEnvNoHome :=
  (loadingRules_precedence exEnvNoHome).1 _ rfl

end Nctl
